import Mathlib

/-
Formal model of the news aggregation system (ingestion, dedup, enrichment
state machine, search/suggestions, analytics) and of its frontend API client.

The frontend definitions are translated from the TypeScript sources under
frontend/ (lib/api.ts, types/api.ts, components/layout/Header.tsx and the
search page).  The backend pipeline (article store, claim primitive,
deduplicating ingestion, retry state machine, search filtering, pagination,
suggestion generation) is not part of the checked-in sources; those
definitions are modelled from the specification and are marked as such in
their doc comments.
-/

namespace NewsSpec

/- ------------------------------------------------------------------ -/
/- Character-list string helpers (kernel-reducible replacements for    -/
/- the host language's string primitives)                              -/
/- ------------------------------------------------------------------ -/

/-- Returns true when the first list is a leading segment of the second. -/
def listLeading : List Char → List Char → Bool
  | [], _ => true
  | _ :: _, [] => false
  | p :: ps, c :: cs => p == c && listLeading ps cs

/-- Returns true when `pat` occurs as a contiguous sublist of the second list. -/
def listContainsSub (pat : List Char) : List Char → Bool
  | [] => listLeading pat []
  | c :: cs => listLeading pat (c :: cs) || listContainsSub pat cs

/-- Substring test on strings (case-sensitive). -/
def strContains (s pat : String) : Bool := listContainsSub pat.data s.data

/-- Leading-segment test on strings. -/
def strLeads (pat s : String) : Bool := listLeading pat.data s.data

/-- Lower-cases every character of a string. -/
def lowerStr (s : String) : String := ⟨s.data.map Char.toLower⟩

/-- Removes leading and trailing spaces. -/
def trimChars (l : List Char) : List Char :=
  ((l.dropWhile (· == ' ')).reverse.dropWhile (· == ' ')).reverse

/- ------------------------------------------------------------------ -/
/- Frontend API client, from frontend/lib/api.ts                       -/
/- ------------------------------------------------------------------ -/

/-- From frontend/lib/api.ts (class ApiError): an error carrying the HTTP
status code and a message. -/
structure ApiError where
  status : Nat
  message : String
deriving Repr, DecidableEq

/-- Abstract HTTP response as observed by `fetchApi`: the `ok` flag, the
status code, the status text, the error body text and the parsed JSON
payload. -/
structure HttpResponse (T : Type) where
  ok : Bool
  status : Nat
  statusText : String
  body : String
  payload : T
deriving Repr, DecidableEq

/-- From frontend/lib/api.ts (fetchApi): when the response is not ok, throw
an `ApiError` with the response status and the body text (or a fallback
message when the body is empty); otherwise return the parsed payload. -/
def fetchApi {T : Type} (r : HttpResponse T) : Except ApiError T :=
  if r.ok then
    Except.ok r.payload
  else
    Except.error ⟨r.status,
      if r.body = "" then "Request failed: " ++ r.statusText else r.body⟩

/-- The status code carried by an error result, if any. -/
def errStatus {T : Type} : Except ApiError T → Option Nat
  | Except.error e => some e.status
  | Except.ok _ => none

/- ------------------------------------------------------------------ -/
/- Frontend schema types, from frontend/types/api.ts                   -/
/- ------------------------------------------------------------------ -/

/-- From frontend/types/api.ts (FetchNewsRequest). -/
structure FetchNewsRequest where
  category : Option String
  query : Option String
deriving Repr, DecidableEq

/-- From frontend/types/api.ts (FetchNewsResponse). -/
structure FetchNewsResponse where
  message : String
  articles_added : Int
deriving Repr, DecidableEq

/-- The declared field names of the `FetchNewsResponse` interface, in
declaration order (frontend/types/api.ts lines 103-106). -/
def fetchNewsResponseFields : List String := ["message", "articles_added"]

/-- From frontend/types/api.ts (DashboardStats). -/
structure DashboardStats where
  total_articles : Int
  processed_articles : Int
  unprocessed_articles : Int
  total_tags : Int
  total_users : Int
  articles_today : Int
  articles_this_week : Int
deriving Repr, DecidableEq

/-- The declared field names of the `DashboardStats` interface, in
declaration order (frontend/types/api.ts lines 64-72). -/
def dashboardStatsFields : List String :=
  ["total_articles", "processed_articles", "unprocessed_articles",
   "total_tags", "total_users", "articles_today", "articles_this_week"]

/-- Whether a field name mentions the word "dead". -/
def mentionsDead (f : String) : Bool := listContainsSub "dead".data f.data

/-- From frontend/types/api.ts (SearchSuggestion) and lib/api.ts
(getSuggestions result). -/
structure SearchSuggestion where
  tags : List String
  titles : List String
deriving Repr, DecidableEq

/-- From frontend/types/api.ts (ArticleListResponse / SearchResultsResponse):
the paginated result shape shared by the article list and search endpoints. -/
structure PaginatedList (α : Type) where
  items : List α
  total : Nat
  page : Nat
  page_size : Nat
  total_pages : Nat
deriving Repr, DecidableEq

/- ------------------------------------------------------------------ -/
/- Fetch-news modal, from frontend/components/layout/Header.tsx        -/
/- ------------------------------------------------------------------ -/

/-- From Header.tsx (handleFetchNews): the request body is built as
`category: fetchCategory || undefined, query: fetchQuery || undefined`,
so an empty string becomes an absent field. -/
def mkFetchNewsRequest (fetchCategory fetchQuery : String) : FetchNewsRequest :=
  { category := if fetchCategory = "" then none else some fetchCategory
    query := if fetchQuery = "" then none else some fetchQuery }

/-- From Header.tsx (fetch modal category select): `disabled={!!fetchQuery}` —
the category selector is disabled whenever a query is typed. -/
def categorySelectDisabled (fetchQuery : String) : Bool := fetchQuery ≠ ""

/-- Criteria as consumed by the source adapter: a free-text query, a
category, or neither (top headlines). -/
inductive FetchCriteria where
  | query (q : String)
  | category (c : String)
  | topHeadlines
deriving Repr, DecidableEq

/-- Modelled from the spec: the Source Adapter's criteria selection is
missing from the checked-in sources.  §4.1: "`criteria` is either a
free-text query or a category (mutually exclusive; query takes
precedence)."  The Header modal states the same: "Category is ignored when
using search query." -/
def effectiveCriteria (r : FetchNewsRequest) : FetchCriteria :=
  match r.query with
  | some q => FetchCriteria.query q
  | none =>
    match r.category with
    | some c => FetchCriteria.category c
    | none => FetchCriteria.topHeadlines

/- ------------------------------------------------------------------ -/
/- Search page suggestion gate, from the search page source            -/
/- (frontend search page, fetchSuggestions)                            -/
/- ------------------------------------------------------------------ -/

/-- From the search page (fetchSuggestions): a query shorter than 2
characters short-circuits to an empty suggestion set without calling the
backend; otherwise the backend is called with limit 5. -/
def fetchSuggestions (q : String) (backend : String → Nat → SearchSuggestion) :
    SearchSuggestion :=
  if q.length < 2 then ⟨[], []⟩ else backend q 5

/- ------------------------------------------------------------------ -/
/- Article store and lifecycle state machine.                          -/
/- The backend is not part of the checked-in sources; everything below -/
/- is modelled from the specification (§3, §4.2, §4.3, §4.5).          -/
/- ------------------------------------------------------------------ -/

/-- Modelled from the spec (§3): the article lifecycle states. -/
inductive ProcessingStatus where
  | pending
  | processing
  | processed
  | failed
  | dead
deriving Repr, DecidableEq

/-- Modelled from the spec (§3): a stored article row.  Identity is the
normalized `canonicalUrl`; `status` and `retryCount` drive the lifecycle
state machine; `scheduledFor` carries the retry backoff deadline. -/
structure StoredArticle where
  id : Nat
  canonicalUrl : String
  title : String
  content : Option String
  summary : Option String
  source : String
  category : Option String
  publishedAt : Option Nat
  status : ProcessingStatus
  retryCount : Nat
  scheduledFor : Option Nat
  tags : List String
deriving Repr, DecidableEq

/-- The durable article store, as a list of rows. -/
abbrev Store := List StoredArticle

/-- Whether a row is a claimable row for `id`: matching id and status
`pending`. -/
def claimTarget (id : Nat) (a : StoredArticle) : Bool :=
  a.id == id && a.status == ProcessingStatus.pending

/-- Modelled from the spec (§4.3): the atomic claim primitive — the
conditional update "set status=processing where id=X and status=pending",
returning whether it took effect.  The update and the returned flag are
one atomic step; a caller that finds no pending row gets `false` (a no-op),
never an error. -/
def claimArticle (s : Store) (id : Nat) : Store × Bool :=
  (s.map (fun a => if claimTarget id a then { a with status := ProcessingStatus.processing } else a),
   s.any (claimTarget id))

/-- `n` consecutive claim attempts on the same article.  Because the claim
is a single atomic step, any interleaving of `n` concurrent callers is some
serialization of `n` such steps; the returned list holds each caller's
result in serialization order. -/
def claimRepeat (s : Store) (id : Nat) : Nat → Store × List Bool
  | 0 => (s, [])
  | Nat.succ n =>
    let r := claimArticle s id
    let rest := claimRepeat r.1 id n
    (rest.1, r.2 :: rest.2)

/- ------------------------------------------------------------------ -/
/- Deduplicating ingestion (spec §3, §4.2)                             -/
/- ------------------------------------------------------------------ -/

/-- Modelled from the spec (§2, §4.1): a raw provider item after field
normalization; missing optional fields are `none`. -/
structure RawArticle where
  url : Option String
  title : Option String
  content : Option String
  source : String
  category : Option String
  publishedAt : Option Nat
deriving Repr, DecidableEq

/-- Drops everything from the first `?` on (strips the query string). -/
def stripQuery : List Char → List Char
  | [] => []
  | c :: cs => if c == '?' then [] else c :: stripQuery cs

/-- Removes a single trailing slash. -/
def stripTrailingSlash (l : List Char) : List Char :=
  match l.reverse with
  | '/' :: rest => rest.reverse
  | _ => l

/-- Modelled from the spec (§3): the canonical dedup key of a URL —
lower-cased, query stripped, trailing slash removed. -/
def canonicalKey (url : String) : String :=
  ⟨stripTrailingSlash (stripQuery (url.data.map Char.toLower))⟩

/-- Modelled from the spec (§4.2): the ingestion batch result counts. -/
structure IngestResult where
  inserted : Nat
  skipped : Nat
  validation_dropped : Nat
deriving Repr, DecidableEq

/-- Whether some row already uses the canonical key `k`. -/
def hasKey (s : Store) (k : String) : Bool := s.any (fun a => a.canonicalUrl == k)

/-- A fresh `pending` row for a validated raw item. -/
def insertRaw (s : Store) (r : RawArticle) (key title : String) : Store :=
  s ++ [{ id := s.length
          canonicalUrl := key
          title := title
          content := r.content
          summary := none
          source := r.source
          category := r.category
          publishedAt := r.publishedAt
          status := ProcessingStatus.pending
          retryCount := 0
          scheduledFor := none
          tags := [] }]

/-- One ingestion step: validate, compute the canonical key, then
insert-if-absent; a key conflict is counted as a skip, not an error. -/
def ingestStep (acc : Store × IngestResult) (r : RawArticle) : Store × IngestResult :=
  match r.url, r.title with
  | some u, some t =>
    let k := canonicalKey u
    if hasKey acc.1 k then
      (acc.1, { acc.2 with skipped := acc.2.skipped + 1 })
    else
      (insertRaw acc.1 r k t, { acc.2 with inserted := acc.2.inserted + 1 })
  | _, _ => (acc.1, { acc.2 with validation_dropped := acc.2.validation_dropped + 1 })

/-- Modelled from the spec (§4.2): the Deduplicator and ingestion gate —
for each raw item compute the canonical key and insert-or-skip against the
store; items missing `canonical_url` or `title` are dropped and counted
separately. -/
def ingest (s : Store) (batch : List RawArticle) : Store × IngestResult :=
  batch.foldl ingestStep (s, ⟨0, 0, 0⟩)

/- ------------------------------------------------------------------ -/
/- Enrichment worker state machine (spec §4.3, §4.4)                   -/
/- ------------------------------------------------------------------ -/

/-- Modelled from the spec (§4.3): the operations that mutate an article
after creation — the claim, the worker's success and failure outcomes,
retry eligibility once the backoff deadline elapses, and the recovery
sweep's stuck-timeout reset. -/
inductive EnrichOp where
  | claim
  | succeed
  | fail
  | retryEligible
  | sweepTimeout
deriving Repr, DecidableEq

/-- Retry configuration: max retries and the backoff parameters. -/
structure MachineConfig where
  maxRetries : Nat
  baseDelay : Nat
  maxDelay : Nat
deriving Repr, DecidableEq

/-- Modelled from the spec (§4.3): exponential backoff with a cap —
`base_delay * 2^retry_count`, capped at `max_delay`. -/
def backoffDelay (cfg : MachineConfig) (retryCount : Nat) : Nat :=
  min (cfg.baseDelay * 2 ^ retryCount) cfg.maxDelay

/-- Modelled from the spec (§4.3): one lifecycle transition of a single
article.  An operation whose source state does not match is a no-op.
On failure the retry count is incremented; below `max_retries` the article
goes to `failed` with a computed backoff deadline, otherwise directly to
`dead`. -/
def stepArticle (cfg : MachineConfig) (now : Nat) (a : StoredArticle) :
    EnrichOp → StoredArticle
  | EnrichOp.claim =>
    if a.status = ProcessingStatus.pending then
      { a with status := ProcessingStatus.processing }
    else a
  | EnrichOp.succeed =>
    if a.status = ProcessingStatus.processing then
      { a with status := ProcessingStatus.processed }
    else a
  | EnrichOp.fail =>
    if a.status = ProcessingStatus.processing then
      let rc := a.retryCount + 1
      if rc < cfg.maxRetries then
        { a with status := ProcessingStatus.failed
                 retryCount := rc
                 scheduledFor := some (now + backoffDelay cfg rc) }
      else
        { a with status := ProcessingStatus.dead, retryCount := rc }
    else a
  | EnrichOp.retryEligible =>
    if a.status = ProcessingStatus.failed then
      { a with status := ProcessingStatus.pending }
    else a
  | EnrichOp.sweepTimeout =>
    if a.status = ProcessingStatus.processing then
      { a with status := ProcessingStatus.pending }
    else a

/-- Runs a sequence of timestamped operations on one article. -/
def runOps (cfg : MachineConfig) (a : StoredArticle) (ops : List (Nat × EnrichOp)) :
    StoredArticle :=
  ops.foldl (fun acc p => stepArticle cfg p.1 acc p.2) a

/-- The inductive invariant behind the retry bound: the retry count never
exceeds `max_retries`, and an article whose retry count has reached
`max_retries` is dead. -/
def retryInvariant (cfg : MachineConfig) (a : StoredArticle) : Prop :=
  a.retryCount ≤ cfg.maxRetries ∧
  (a.retryCount = cfg.maxRetries → a.status = ProcessingStatus.dead)

/- ------------------------------------------------------------------ -/
/- Search, pagination and suggestions (spec §4.5)                      -/
/- ------------------------------------------------------------------ -/

/-- Modelled from the spec (§4.5, §6): the search filter set accepted by
`listArticles`/`search` — free text plus equality filters on category,
source and tag and a published-at date range. -/
structure SearchFilters where
  q : Option String
  category : Option String
  source : Option String
  tag : Option String
  fromDate : Option Nat
  toDate : Option Nat
deriving Repr, DecidableEq

/-- Case-insensitive substring match of the term across title, summary and
content (spec §4.5). -/
def matchesText (a : StoredArticle) (term : String) : Bool :=
  let t := lowerStr term
  strContains (lowerStr a.title) t ||
  (match a.summary with | some s => strContains (lowerStr s) t | none => false) ||
  (match a.content with | some c => strContains (lowerStr c) t | none => false)

/-- Modelled from the spec (§4.5): every supplied filter must hold —
filters combine by logical AND. -/
def matchesFilters (a : StoredArticle) (f : SearchFilters) : Bool :=
  (match f.q with | none => true | some term => matchesText a term) &&
  (match f.category with | none => true | some c => a.category == some c) &&
  (match f.source with | none => true | some s => a.source == s) &&
  (match f.tag with | none => true | some t => a.tags.contains t) &&
  (match f.fromDate with
   | none => true
   | some d => match a.publishedAt with | some p => d ≤ p | none => false) &&
  (match f.toDate with
   | none => true
   | some d => match a.publishedAt with | some p => p ≤ d | none => false)

/-- The full filtered set of a search, before pagination. -/
def searchArticles (s : Store) (f : SearchFilters) : List StoredArticle :=
  s.filter (fun a => matchesFilters a f)

/-- The filter set with nothing supplied. -/
def emptyFilters : SearchFilters := ⟨none, none, none, none, none, none⟩

/-- A category-only filter. -/
def categoryFilter (c : String) : SearchFilters :=
  { emptyFilters with category := some c }

/-- A tag-only filter. -/
def tagFilter (t : String) : SearchFilters :=
  { emptyFilters with tag := some t }

/-- Category and tag filters combined in one request. -/
def categoryTagFilter (c t : String) : SearchFilters :=
  { emptyFilters with category := some c, tag := some t }

/-- Modelled from the spec (§4.5): `total_pages = ceil(total / page_size)`,
computed in integer arithmetic. -/
def totalPagesOf (total pageSize : Nat) : Nat := (total + pageSize - 1) / pageSize

/-- Modelled from the spec (§4.5, §6): the pagination shared by
`listArticles` and `search` — page `page` (1-based) holds the next
`page_size` items of the filtered set, together with the full count and the
page count. -/
def paginate {α : Type} (l : List α) (page pageSize : Nat) : PaginatedList α :=
  { items := (l.drop ((page - 1) * pageSize)).take pageSize
    total := l.length
    page := page
    page_size := pageSize
    total_pages := totalPagesOf l.length pageSize }

/-- Modelled from the spec (§3, §4.5): tag-name normalization — lower-cased
and trimmed. -/
def normalizeTag (s : String) : String := ⟨trimChars (s.data.map Char.toLower)⟩

/-- Modelled from the spec (§4.5): the suggestion generator.  A prefix
shorter than 2 characters yields an empty result.  Otherwise: up to
`limit` tag names whose normalized form starts with the normalized prefix
(the input list is ordered by frequency then alphabetically), and up to
`limit` titles containing the prefix as a substring (the input list is
ordered by recency then alphabetically). -/
def getSuggestions (tagsByFrequency : List String) (titlesByRecency : List String)
    (pfx : String) (limit : Nat) : SearchSuggestion :=
  if pfx.length < 2 then ⟨[], []⟩
  else
    { tags := ((tagsByFrequency.filter
        (fun t => strLeads (normalizeTag pfx) (normalizeTag t))).take limit)
      titles := ((titlesByRecency.filter (fun t => strContains t pfx)).take limit) }

/- ------------------------------------------------------------------ -/
/- Concrete sample data used to evaluate the model                     -/
/- ------------------------------------------------------------------ -/

/-- A pending article with id 5 (spec §8, scenario 2). -/
def demoPending : StoredArticle :=
  { id := 5, canonicalUrl := "https://a.com/1", title := "A", content := none,
    summary := none, source := "wire", category := none, publishedAt := none,
    status := ProcessingStatus.pending, retryCount := 0, scheduledFor := none,
    tags := [] }

/-- A dead-lettered article with its retries exhausted. -/
def demoDead : StoredArticle :=
  { id := 9, canonicalUrl := "https://a.com/9", title := "D", content := none,
    summary := none, source := "wire", category := none, publishedAt := none,
    status := ProcessingStatus.dead, retryCount := 3, scheduledFor := none,
    tags := [] }

/-- A processed technology article tagged "ai". -/
def demoTechAi : StoredArticle :=
  { id := 1, canonicalUrl := "https://a.com/ai", title := "AI", content := none,
    summary := some "about ai", source := "wire", category := some "technology",
    publishedAt := some 100, status := ProcessingStatus.processed,
    retryCount := 0, scheduledFor := none, tags := ["ai"] }

/-- Raw item for the dedup scenario (spec §8, scenario 1). -/
def demoRaw1 : RawArticle :=
  ⟨some "https://a.com/1", some "A", none, "wire", none, none⟩

/-- A duplicate of `demoRaw1` under the canonical key. -/
def demoRaw2 : RawArticle :=
  ⟨some "https://a.com/1/", some "A-dup", none, "wire", none, none⟩

/-- The retry configuration of the retry-bound scenario (spec §8):
`max_retries = 3`. -/
def testCfg : MachineConfig := ⟨3, 60, 3600⟩

/-- A fresh pending article with id 7 (spec §8, scenario 3). -/
def pendingSeven : StoredArticle :=
  { id := 7, canonicalUrl := "https://news.example/7", title := "Article 7",
    content := some "body", summary := none, source := "wire", category := none,
    publishedAt := none, status := ProcessingStatus.pending, retryCount := 0,
    scheduledFor := none, tags := [] }

/-- The operation sequence in which enrichment fails until the retries are
exhausted: each cycle is claim, failure, then retry eligibility. -/
def exhaustOps : List (Nat × EnrichOp) :=
  [(0, EnrichOp.claim), (0, EnrichOp.fail),
   (120, EnrichOp.retryEligible), (120, EnrichOp.claim), (120, EnrichOp.fail),
   (360, EnrichOp.retryEligible), (360, EnrichOp.claim), (360, EnrichOp.fail)]

/-- A five-element list used to evaluate pagination. -/
def demoList : List Nat := [10, 20, 30, 40, 50]

/- ================================================================== -/
/- Theorems                                                            -/
/- ================================================================== -/

/-- Claim C10: for every endpoint response whose status is not ok, the
frontend client `fetchApi` produces an `ApiError` carrying that response's
status code and never a parsed result value; a successful value is produced
only from an ok response. -/
theorem fetchApi_error_propagation {T : Type} (r : HttpResponse T) :
    (r.ok = false → errStatus (fetchApi r) = some r.status) ∧
    (∀ t : T, fetchApi r = Except.ok t → r.ok = true) := by
  constructor
  · intro h
    simp [fetchApi, h, errStatus]
  · intro t ht
    cases hr : r.ok with
    | true => rfl
    | false => simp [fetchApi, hr] at ht

/-- Witness for `fetchApi_error_propagation` at a concrete 404 response. -/
theorem fetchApi_error_propagation_witness :
    errStatus (fetchApi (⟨false, 404, "Not Found", "missing article", 0⟩ :
      HttpResponse Nat)) = some 404 :=
  (fetchApi_error_propagation _).1 rfl

/-- Claim C7 as stated is false: the fetch result interface
`FetchNewsResponse` declares no `inserted`, `skipped` or
`validation_dropped` fields. -/
theorem fetch_response_counts_missing :
    ¬ ("inserted" ∈ fetchNewsResponseFields ∧
       "skipped" ∈ fetchNewsResponseFields ∧
       "validation_dropped" ∈ fetchNewsResponseFields) := by
  decide

/-- Claim C7, amended: the result of the fetch operation exposed at the
public interface is the record `{message, articles_added}` — a
human-readable message and one combined count of added articles; the
separate inserted/skipped/validation_dropped counts are not exposed. -/
theorem fetch_response_shape :
    fetchNewsResponseFields = ["message", "articles_added"] ∧
    "articles_added" ∈ fetchNewsResponseFields ∧
    "inserted" ∉ fetchNewsResponseFields ∧
    "skipped" ∉ fetchNewsResponseFields ∧
    "validation_dropped" ∉ fetchNewsResponseFields := by
  refine ⟨rfl, ?_, ?_, ?_, ?_⟩ <;> decide

/-- Claim C8 as stated is false: no field of the `DashboardStats`
interface mentions dead articles, so the dashboard statistics do not report
a dead count. -/
theorem dashboard_dead_count_missing :
    ¬ (dashboardStatsFields.any mentionsDead = true) := by
  decide

/-- Claim C8, amended: the dashboard statistics report total, processed and
unprocessed article counts (plus tag and user totals and today/this-week
counts), but expose no count of articles in status dead. -/
theorem dashboard_stats_shape :
    dashboardStatsFields =
      ["total_articles", "processed_articles", "unprocessed_articles",
       "total_tags", "total_users", "articles_today", "articles_this_week"] ∧
    "total_articles" ∈ dashboardStatsFields ∧
    "processed_articles" ∈ dashboardStatsFields ∧
    "unprocessed_articles" ∈ dashboardStatsFields ∧
    dashboardStatsFields.any mentionsDead = false := by
  refine ⟨rfl, ?_, ?_, ?_, ?_⟩ <;> decide

/-- Claim C9: the effective fetch criteria is a free-text query or a
category but never both; when both are supplied the query takes precedence
and the category is ignored (and the category selector is disabled in the
modal as soon as a query is typed). -/
theorem criteria_query_precedence (cat q : String) :
    (effectiveCriteria (mkFetchNewsRequest cat q) = FetchCriteria.query q ∨
     effectiveCriteria (mkFetchNewsRequest cat q) = FetchCriteria.category cat ∨
     effectiveCriteria (mkFetchNewsRequest cat q) = FetchCriteria.topHeadlines) ∧
    (q ≠ "" →
      effectiveCriteria (mkFetchNewsRequest cat q) = FetchCriteria.query q ∧
      categorySelectDisabled q = true) ∧
    (q = "" → cat ≠ "" →
      effectiveCriteria (mkFetchNewsRequest cat q) = FetchCriteria.category cat) := by
  by_cases hq : q = "" <;> by_cases hc : cat = "" <;>
    simp [mkFetchNewsRequest, effectiveCriteria, categorySelectDisabled, hq, hc]

/-- Witness for `criteria_query_precedence`: with both a category and a
query supplied, the query wins and the category selector is disabled. -/
theorem criteria_query_precedence_witness :
    effectiveCriteria (mkFetchNewsRequest "technology" "ai")
      = FetchCriteria.query "ai" ∧
    categorySelectDisabled "ai" = true :=
  (criteria_query_precedence "technology" "ai").2.1 (by decide)

/-- Claim C6: a prefix shorter than 2 characters yields the empty
suggestion set (the search page short-circuits without calling the backend,
and the modelled backend agrees); for longer prefixes every returned tag
suggestion starts, after normalization, with the normalized prefix, and at
most `limit` tag names and `limit` titles are returned. -/
theorem suggestion_prefix_bound (tagsByFrequency titlesByRecency : List String)
    (pfx : String) (limit : Nat) (backend : String → Nat → SearchSuggestion) :
    (∀ q : String, q.length < 2 → fetchSuggestions q backend = ⟨[], []⟩) ∧
    (pfx.length < 2 →
      getSuggestions tagsByFrequency titlesByRecency pfx limit = ⟨[], []⟩) ∧
    (∀ t ∈ (getSuggestions tagsByFrequency titlesByRecency pfx limit).tags,
      strLeads (normalizeTag pfx) (normalizeTag t) = true) ∧
    (getSuggestions tagsByFrequency titlesByRecency pfx limit).tags.length ≤ limit ∧
    (getSuggestions tagsByFrequency titlesByRecency pfx limit).titles.length ≤ limit := by
  refine ⟨?_, ?_, ?_, ?_, ?_⟩
  · intro q hq
    simp [fetchSuggestions, hq]
  · intro h
    simp [getSuggestions, h]
  · intro t ht
    by_cases h : pfx.length < 2
    · simp [getSuggestions, h] at ht
    · simp only [getSuggestions, if_neg h] at ht
      have hmem := List.take_subset _ _ ht
      exact (List.mem_filter.mp hmem).2
  · by_cases h : pfx.length < 2
    · simp [getSuggestions, h]
    · simp only [getSuggestions, if_neg h]
      exact List.length_take_le _ _
  · by_cases h : pfx.length < 2
    · simp [getSuggestions, h]
    · simp only [getSuggestions, if_neg h]
      exact List.length_take_le _ _

/-- Witness for `suggestion_prefix_bound`: a 1-character query yields an
empty suggestion set regardless of the backend. -/
theorem suggestion_prefix_bound_witness :
    fetchSuggestions "a" (fun _ _ => ⟨["x"], ["y"]⟩) = ⟨[], []⟩ :=
  (suggestion_prefix_bound [] [] "ai" 5 (fun _ _ => ⟨["x"], ["y"]⟩)).1 "a"
    (by decide)

/-- Claim C5: searching with a category filter and a tag filter together
returns exactly the set intersection of searching with each filter alone —
filters combine by AND, never OR. -/
theorem filter_intersection (s : Store) (c t : String) (a : StoredArticle) :
    a ∈ searchArticles s (categoryTagFilter c t) ↔
      (a ∈ searchArticles s (categoryFilter c) ∧
       a ∈ searchArticles s (tagFilter t)) := by
  simp only [searchArticles, List.mem_filter, matchesFilters, categoryTagFilter,
    categoryFilter, tagFilter, emptyFilters, Bool.and_eq_true]
  tauto

/-- Witness for `filter_intersection` at a concrete store and article. -/
theorem filter_intersection_witness :
    demoTechAi ∈ searchArticles [demoTechAi] (categoryTagFilter "technology" "ai") ↔
      (demoTechAi ∈ searchArticles [demoTechAi] (categoryFilter "technology") ∧
       demoTechAi ∈ searchArticles [demoTechAi] (tagFilter "ai")) :=
  filter_intersection [demoTechAi] "technology" "ai" demoTechAi

/-- A map that fixes every element of a list leaves the list unchanged. -/
theorem list_map_id_of {α : Type} (l : List α) (f : α → α)
    (h : ∀ a ∈ l, f a = a) : l.map f = l := by
  induction l with
  | nil => rfl
  | cons a t ih =>
    have ha : f a = a := h a (List.mem_cons_self a t)
    have ht : ∀ x ∈ t, f x = x := fun x hx => h x (List.mem_cons_of_mem a hx)
    simp [ha, ih ht]

/-- After one claim of `id`, no row of the store is a claimable row for
`id` any more: a matching row was moved to `processing`, every other row
was already unclaimable. -/
theorem claimArticle_clears (s : Store) (id : Nat) :
    ∀ a ∈ (claimArticle s id).1, claimTarget id a = false := by
  intro a ha
  simp only [claimArticle, List.mem_map] at ha
  obtain ⟨b, _, rfl⟩ := ha
  cases h : claimTarget id b with
  | true =>
    have hpp : (ProcessingStatus.processing == ProcessingStatus.pending) = false := rfl
    simp [h, claimTarget, hpp]
  | false =>
    simp [h]

/-- A claim against a store with no claimable row is a no-op returning
`false`. -/
theorem claimArticle_noop (s : Store) (id : Nat)
    (h : ∀ a ∈ s, claimTarget id a = false) :
    claimArticle s id = (s, false) := by
  unfold claimArticle
  refine Prod.ext ?_ ?_
  · apply list_map_id_of
    intro a ha
    rw [h a ha]
    rfl
  · simp only
    rw [List.any_eq_false]
    intro a ha
    simp [h a ha]

/-- Repeated claims against a store with no claimable row all return
`false` and leave the store unchanged. -/
theorem claimRepeat_none (s : Store) (id : Nat) (n : Nat)
    (h : ∀ a ∈ s, claimTarget id a = false) :
    claimRepeat s id n = (s, List.replicate n false) := by
  induction n with
  | zero => rfl
  | succ n ih =>
    simp only [claimRepeat, claimArticle_noop s id h, ih, List.replicate_succ]

/-- Claim C1: starting from a store holding a pending article with the
given id, any serialization of `n ≥ 1` concurrent claim attempts on that
article yields exactly one success and `n - 1` no-op results; since the
claim returns a plain flag, no caller receives an error.  (The claim is a
single atomic step, so every interleaving of the `n` callers is one such
serialization.) -/
theorem at_most_one_claim (s : Store) (id : Nat) (n : Nat) (hn : 1 ≤ n)
    (hpending : s.any (claimTarget id) = true) :
    (claimRepeat s id n).2.count true = 1 ∧
    (claimRepeat s id n).2.count false = n - 1 := by
  obtain ⟨m, rfl⟩ : ∃ m, n = m + 1 := ⟨n - 1, by omega⟩
  have hrest :=
    claimRepeat_none (claimArticle s id).1 id m (claimArticle_clears s id)
  have h2 : (claimRepeat s id (m + 1)).2
      = (claimArticle s id).2 :: (claimRepeat (claimArticle s id).1 id m).2 := rfl
  have hflag : (claimArticle s id).2 = true := hpending
  rw [h2, hrest, hflag]
  simp [List.count_cons, List.count_replicate]

/-- Witness for `at_most_one_claim`: three claimers on one pending article
produce one success and two no-ops. -/
theorem at_most_one_claim_witness :
    (claimRepeat [demoPending] 5 3).2.count true = 1 ∧
    (claimRepeat [demoPending] 5 3).2.count false = 2 :=
  at_most_one_claim [demoPending] 5 3 (by decide) (by decide)

/-- No lifecycle transition decreases the retry count. -/
theorem stepArticle_retry_mono (cfg : MachineConfig) (now : Nat)
    (a : StoredArticle) (op : EnrichOp) :
    a.retryCount ≤ (stepArticle cfg now a op).retryCount := by
  cases op with
  | claim => simp only [stepArticle]; split <;> simp
  | succeed => simp only [stepArticle]; split <;> simp
  | fail =>
    simp only [stepArticle]
    split
    · split <;> simp
    · simp
  | retryEligible => simp only [stepArticle]; split <;> simp
  | sweepTimeout => simp only [stepArticle]; split <;> simp

/-- A dead article is terminal: every lifecycle transition fixes it. -/
theorem stepArticle_dead (cfg : MachineConfig) (now : Nat) (a : StoredArticle)
    (op : EnrichOp) (h : a.status = ProcessingStatus.dead) :
    stepArticle cfg now a op = a := by
  cases op <;> simp [stepArticle, h]

/-- One lifecycle transition preserves the retry invariant: the retry
count stays within `max_retries` and an article whose retry count has
reached `max_retries` is dead. -/
theorem stepArticle_invariant (cfg : MachineConfig) (now : Nat)
    (a : StoredArticle) (op : EnrichOp) (h : retryInvariant cfg a) :
    retryInvariant cfg (stepArticle cfg now a op) := by
  obtain ⟨h1, h2⟩ := h
  have hne : a.status ≠ ProcessingStatus.dead → a.retryCount ≠ cfg.maxRetries :=
    fun hs he => hs (h2 he)
  cases op with
  | claim =>
    simp only [stepArticle]
    split
    · rename_i hstat
      refine ⟨h1, fun he => absurd (h2 he) ?_⟩
      simp [hstat]
    · exact ⟨h1, h2⟩
  | succeed =>
    simp only [stepArticle]
    split
    · rename_i hstat
      refine ⟨h1, fun he => absurd (h2 he) ?_⟩
      simp [hstat]
    · exact ⟨h1, h2⟩
  | fail =>
    simp only [stepArticle]
    split
    · rename_i hstat
      have hlt : a.retryCount < cfg.maxRetries := by
        have := hne (by simp [hstat])
        omega
      split
      · rename_i hrc
        exact ⟨by simpa using hlt, fun he => by simp at he; omega⟩
      · rename_i hrc
        exact ⟨by simpa using hlt, fun _ => rfl⟩
    · exact ⟨h1, h2⟩
  | retryEligible =>
    simp only [stepArticle]
    split
    · rename_i hstat
      refine ⟨h1, fun he => absurd (h2 he) ?_⟩
      simp [hstat]
    · exact ⟨h1, h2⟩
  | sweepTimeout =>
    simp only [stepArticle]
    split
    · rename_i hstat
      refine ⟨h1, fun he => absurd (h2 he) ?_⟩
      simp [hstat]
    · exact ⟨h1, h2⟩

/-- Retry monotonicity extends to arbitrary operation sequences. -/
theorem runOps_retry_mono (cfg : MachineConfig) (a : StoredArticle)
    (ops : List (Nat × EnrichOp)) :
    a.retryCount ≤ (runOps cfg a ops).retryCount := by
  induction ops generalizing a with
  | nil => exact Nat.le_refl _
  | cons p rest ih =>
    exact Nat.le_trans (stepArticle_retry_mono cfg p.1 a p.2)
      (ih (stepArticle cfg p.1 a p.2))

/-- Dead-absorption extends to arbitrary operation sequences. -/
theorem runOps_dead (cfg : MachineConfig) (a : StoredArticle)
    (ops : List (Nat × EnrichOp)) (h : a.status = ProcessingStatus.dead) :
    runOps cfg a ops = a := by
  induction ops generalizing a with
  | nil => rfl
  | cons p rest ih =>
    have hstep := stepArticle_dead cfg p.1 a p.2 h
    show runOps cfg (stepArticle cfg p.1 a p.2) rest = a
    rw [hstep, ih a h]

/-- The retry invariant extends to arbitrary operation sequences. -/
theorem runOps_invariant (cfg : MachineConfig) (a : StoredArticle)
    (ops : List (Nat × EnrichOp)) (h : retryInvariant cfg a) :
    retryInvariant cfg (runOps cfg a ops) := by
  induction ops generalizing a with
  | nil => exact h
  | cons p rest ih =>
    exact ih (stepArticle cfg p.1 a p.2) (stepArticle_invariant cfg p.1 a p.2 h)

/-- Claim C3: the retry count never decreases across any operation
sequence; dead is terminal; the retry count never exceeds `max_retries`
and reaching it entails status dead; and in the concrete scenario with
`max_retries = 3`, an article whose enrichment keeps failing ends dead with
retry count 3 and a further claim attempt is a no-op, so no further
enrichment attempt is ever executed on it. -/
theorem retry_bound_dead_terminal :
    (∀ (cfg : MachineConfig) (a : StoredArticle) (ops : List (Nat × EnrichOp)),
      a.retryCount ≤ (runOps cfg a ops).retryCount) ∧
    (∀ (cfg : MachineConfig) (a : StoredArticle) (ops : List (Nat × EnrichOp)),
      a.status = ProcessingStatus.dead → runOps cfg a ops = a) ∧
    (∀ (cfg : MachineConfig) (a : StoredArticle) (ops : List (Nat × EnrichOp)),
      retryInvariant cfg a → retryInvariant cfg (runOps cfg a ops)) ∧
    (runOps testCfg pendingSeven exhaustOps).status = ProcessingStatus.dead ∧
    (runOps testCfg pendingSeven exhaustOps).retryCount = 3 ∧
    stepArticle testCfg 999 (runOps testCfg pendingSeven exhaustOps) EnrichOp.claim
      = runOps testCfg pendingSeven exhaustOps := by
  refine ⟨runOps_retry_mono, runOps_dead, runOps_invariant, ?_, ?_, ?_⟩ <;> decide

/-- Witness for `retry_bound_dead_terminal`: a dead article is untouched by
a later claim. -/
theorem retry_bound_dead_terminal_witness :
    runOps testCfg demoDead [(5, EnrichOp.claim)] = demoDead :=
  retry_bound_dead_terminal.2.1 testCfg demoDead [(5, EnrichOp.claim)] rfl

/-- A store without the key `k` has no row whose canonical URL is `k`. -/
theorem not_hasKey (s : Store) (k : String) (h : hasKey s k = false) :
    k ∉ s.map (fun a => a.canonicalUrl) := by
  intro hk
  obtain ⟨a, ha, hak⟩ := List.mem_map.mp hk
  simp only [hasKey] at h
  have := (List.any_eq_false.mp h) a ha
  simp [hak] at this

/-- Exhaustive description of one ingestion step: a valid item is either
skipped (key present) or inserted (key absent); an invalid item is dropped
and counted. -/
theorem ingestStep_cases (acc : Store × IngestResult) (r : RawArticle) :
    (∃ u t, r.url = some u ∧ r.title = some t ∧
      ((hasKey acc.1 (canonicalKey u) = true ∧
        ingestStep acc r = (acc.1, { acc.2 with skipped := acc.2.skipped + 1 })) ∨
       (hasKey acc.1 (canonicalKey u) = false ∧
        ingestStep acc r = (insertRaw acc.1 r (canonicalKey u) t,
          { acc.2 with inserted := acc.2.inserted + 1 })))) ∨
    ((r.url = none ∨ r.title = none) ∧
      ingestStep acc r
        = (acc.1, { acc.2 with validation_dropped := acc.2.validation_dropped + 1 })) := by
  obtain ⟨url, title, content, source, category, publishedAt⟩ := r
  cases url with
  | none => exact Or.inr ⟨Or.inl rfl, rfl⟩
  | some u =>
    cases title with
    | none => exact Or.inr ⟨Or.inr rfl, rfl⟩
    | some t =>
      left
      refine ⟨u, t, rfl, rfl, ?_⟩
      cases hk : hasKey acc.1 (canonicalKey u) with
      | true => exact Or.inl ⟨rfl, by simp [ingestStep, hk]⟩
      | false => exact Or.inr ⟨rfl, by simp [ingestStep, hk]⟩

/-- Ingestion preserves canonical-key uniqueness of the store. -/
theorem ingest_foldl_nodup (batch : List RawArticle) :
    ∀ acc : Store × IngestResult,
      (acc.1.map (fun a => a.canonicalUrl)).Nodup →
      ((batch.foldl ingestStep acc).1.map (fun a => a.canonicalUrl)).Nodup := by
  induction batch with
  | nil => intro acc h; exact h
  | cons r rest ih =>
    intro acc h
    rw [List.foldl_cons]
    apply ih
    rcases ingestStep_cases acc r with ⟨u, t, _, _, ⟨_, heq⟩ | ⟨hk, heq⟩⟩ | ⟨_, heq⟩
    · rw [heq]; exact h
    · rw [heq]
      simp only [insertRaw, List.map_append, List.map_cons, List.map_nil]
      rw [List.nodup_append]
      exact ⟨h, by simp, by rw [List.disjoint_singleton]; exact not_hasKey acc.1 _ hk⟩
    · rw [heq]; exact h

/-- Every ingested item is counted exactly once among inserted, skipped and
validation_dropped. -/
theorem ingest_foldl_counts (batch : List RawArticle) :
    ∀ acc : Store × IngestResult,
      (batch.foldl ingestStep acc).2.inserted + (batch.foldl ingestStep acc).2.skipped +
          (batch.foldl ingestStep acc).2.validation_dropped
        = acc.2.inserted + acc.2.skipped + acc.2.validation_dropped + batch.length := by
  induction batch with
  | nil => intro acc; simp
  | cons r rest ih =>
    intro acc
    rw [List.foldl_cons]
    have h := ih (ingestStep acc r)
    rcases ingestStep_cases acc r with ⟨u, t, _, _, ⟨_, heq⟩ | ⟨_, heq⟩⟩ | ⟨_, heq⟩
    · rw [heq] at h
      rw [heq]
      simp only [List.length_cons]
      simp at h
      omega
    · rw [heq] at h
      rw [heq]
      simp only [List.length_cons]
      simp at h
      omega
    · rw [heq] at h
      rw [heq]
      simp only [List.length_cons]
      simp at h
      omega

/-- Rows are added to the store only by inserts. -/
theorem ingest_foldl_length (batch : List RawArticle) :
    ∀ acc : Store × IngestResult,
      (batch.foldl ingestStep acc).1.length + acc.2.inserted
        = acc.1.length + (batch.foldl ingestStep acc).2.inserted := by
  induction batch with
  | nil => intro acc; rfl
  | cons r rest ih =>
    intro acc
    rw [List.foldl_cons]
    have h := ih (ingestStep acc r)
    rcases ingestStep_cases acc r with ⟨u, t, _, _, ⟨_, heq⟩ | ⟨_, heq⟩⟩ | ⟨_, heq⟩
    · rw [heq] at h
      rw [heq]
      simp at h ⊢
      omega
    · rw [heq] at h
      rw [heq]
      simp [insertRaw, List.length_append] at h ⊢
      omega
    · rw [heq] at h
      rw [heq]
      simp at h ⊢
      omega

/-- Ingestion never removes a canonical key from the store. -/
theorem ingest_foldl_hasKey_mono (batch : List RawArticle) :
    ∀ (acc : Store × IngestResult) (k : String), hasKey acc.1 k = true →
      hasKey (batch.foldl ingestStep acc).1 k = true := by
  induction batch with
  | nil => intro acc k h; exact h
  | cons r rest ih =>
    intro acc k h
    rw [List.foldl_cons]
    apply ih
    rcases ingestStep_cases acc r with ⟨u, t, _, _, ⟨_, heq⟩ | ⟨_, heq⟩⟩ | ⟨_, heq⟩ <;> rw [heq]
    · exact h
    · simp only [hasKey, insertRaw, List.any_append]
      simp only [hasKey] at h
      simp [h]
    · exact h

/-- After ingesting a batch, the canonical key of every valid item of the
batch is present in the store. -/
theorem ingest_foldl_key_present (batch : List RawArticle) :
    ∀ (acc : Store × IngestResult) (r : RawArticle) (u t : String),
      r ∈ batch → r.url = some u → r.title = some t →
      hasKey (batch.foldl ingestStep acc).1 (canonicalKey u) = true := by
  induction batch with
  | nil => intro acc r u t h _ _; exact absurd h (List.not_mem_nil r)
  | cons r0 rest ih =>
    intro acc r u t hmem hu ht
    rw [List.foldl_cons]
    rcases List.mem_cons.mp hmem with rfl | hmem'
    · apply ingest_foldl_hasKey_mono
      rcases ingestStep_cases acc r with ⟨u', t', hu', ht', hcase⟩ | ⟨hbad, _⟩
      · have huu : u' = u := by
          rw [hu] at hu'
          exact (Option.some.inj hu').symm
        subst huu
        rcases hcase with ⟨hk, heq⟩ | ⟨_, heq⟩
        · rw [heq]; exact hk
        · rw [heq]
          simp [hasKey, insertRaw, List.any_append]
      · rcases hbad with hb | hb
        · rw [hu] at hb; exact absurd hb (by simp)
        · rw [ht] at hb; exact absurd hb (by simp)
    · exact ih (ingestStep acc r0) r u t hmem' hu ht

/-- Claim C2: starting from a store whose canonical keys are unique,
ingesting any raw batch (a) preserves canonical-key uniqueness, so two raw
items with equal canonical keys never produce two rows; (b) accounts for
every item exactly once as inserted, skipped or validation_dropped — a
duplicate is a skip, never an error; (c) grows the store only by the
inserts; and (d) leaves the canonical key of every valid item present — so
a batch duplicating one canonical URL yields exactly one stored article. -/
theorem ingest_dedup_idempotent (s : Store) (batch : List RawArticle)
    (h : (s.map (fun a => a.canonicalUrl)).Nodup) :
    ((ingest s batch).1.map (fun a => a.canonicalUrl)).Nodup ∧
    (ingest s batch).2.inserted + (ingest s batch).2.skipped +
      (ingest s batch).2.validation_dropped = batch.length ∧
    (ingest s batch).1.length = s.length + (ingest s batch).2.inserted ∧
    (∀ r ∈ batch, ∀ u t : String, r.url = some u → r.title = some t →
      hasKey (ingest s batch).1 (canonicalKey u) = true) := by
  refine ⟨?_, ?_, ?_, ?_⟩
  · exact ingest_foldl_nodup batch (s, ⟨0, 0, 0⟩) h
  · have hc := ingest_foldl_counts batch (s, ⟨0, 0, 0⟩)
    simpa [ingest] using hc
  · have hl := ingest_foldl_length batch (s, ⟨0, 0, 0⟩)
    simpa [ingest] using hl
  · intro r hr u t hu ht
    exact ingest_foldl_key_present batch (s, ⟨0, 0, 0⟩) r u t hr hu ht

/-- Witness for `ingest_dedup_idempotent`: a two-item batch sharing one
canonical URL (up to normalization) is fully accounted by the counters. -/
theorem ingest_dedup_idempotent_witness :
    (ingest [] [demoRaw1, demoRaw2]).2.inserted +
      (ingest [] [demoRaw1, demoRaw2]).2.skipped +
      (ingest [] [demoRaw1, demoRaw2]).2.validation_dropped = 2 :=
  (ingest_dedup_idempotent [] [demoRaw1, demoRaw2] (by simp)).2.1

/-- An empty set has no pages. -/
theorem totalPagesOf_zero (S : Nat) (hs : 0 < S) : totalPagesOf 0 S = 0 := by
  unfold totalPagesOf
  apply Nat.div_eq_of_lt
  omega

/-- Peeling one page off a nonempty set. -/
theorem totalPagesOf_succ (T S : Nat) (hs : 0 < S) (hT : 0 < T) :
    totalPagesOf T S = totalPagesOf (T - S) S + 1 := by
  rcases le_or_lt T S with h | h
  · have h0 : T - S = 0 := by omega
    rw [h0, totalPagesOf_zero S hs]
    unfold totalPagesOf
    have h2 : T + S - 1 = (T - 1) + S := by omega
    rw [h2, Nat.add_div_right _ hs]
    have h3 : (T - 1) / S = 0 := Nat.div_eq_of_lt (by omega)
    rw [h3]
  · unfold totalPagesOf
    have h2 : T + S - 1 = (T - S + S - 1) + S := by omega
    rw [h2, Nat.add_div_right _ hs]

/-- `totalPagesOf T S` is the least `m` with `T ≤ m * S`: exactly the
ceiling of `T / S`. -/
theorem totalPagesOf_le_iff (T S m : Nat) (hs : 0 < S) :
    totalPagesOf T S ≤ m ↔ T ≤ m * S := by
  unfold totalPagesOf
  rw [Nat.div_le_iff_le_mul_add_pred hs]
  rw [Nat.mul_comm S m]
  generalize m * S = P
  omega

/-- Concatenating the `totalPagesOf` chunks of size `S` reproduces the
list. -/
theorem pagesFlatten {α : Type} (S : Nat) (hs : 0 < S) :
    ∀ (n : Nat) (l : List α), l.length ≤ n →
      ((List.range (totalPagesOf l.length S)).map
        (fun i => (l.drop (i * S)).take S)).flatten = l := by
  intro n
  induction n with
  | zero =>
    intro l hl
    have h0 : l = [] := List.length_eq_zero.mp (by omega)
    subst h0
    simp [totalPagesOf_zero S hs]
  | succ n ih =>
    intro l hl
    rcases eq_or_ne l [] with rfl | hne
    · simp [totalPagesOf_zero S hs]
    · have hT : 0 < l.length := List.length_pos.mpr hne
      rw [totalPagesOf_succ l.length S hs hT]
      rw [List.range_succ_eq_map]
      rw [List.map_cons, List.flatten_cons]
      have hhead : (l.drop (0 * S)).take S = l.take S := by simp
      rw [hhead, List.map_map]
      have hfun : ((fun i => (l.drop (i * S)).take S) ∘ Nat.succ)
          = (fun i => ((l.drop S).drop (i * S)).take S) := by
        funext i
        simp only [Function.comp]
        rw [List.drop_drop, Nat.succ_mul, Nat.add_comm (i * S) S]
      rw [hfun]
      have hlen : (l.drop S).length = l.length - S := List.length_drop S l
      have hrec := ih (l.drop S) (by rw [hlen]; omega)
      rw [← hlen, hrec]
      exact List.take_append_drop S l

/-- Claim C4: for every filtered set and `page ≥ 1`, `page_size = S ≥ 1`,
the paginated result has at most `S` items and reports the full count as
`total`; `total_pages` is exactly `ceil(total / S)` (characterized as the
least `m` with `total ≤ m * S`); and concatenating pages `1..total_pages`
in order reproduces the full filtered set with no duplicates and no
omissions. -/
theorem pagination_law {α : Type} (l : List α) (page S : Nat)
    (hpage : 1 ≤ page) (hS : 1 ≤ S) :
    (paginate l page S).items.length ≤ S ∧
    (paginate l page S).total = l.length ∧
    l.length ≤ (paginate l page S).total_pages * S ∧
    (∀ m : Nat, l.length ≤ m * S → (paginate l page S).total_pages ≤ m) ∧
    ((List.range (paginate l page S).total_pages).map
      (fun i => (paginate l (i + 1) S).items)).flatten = l := by
  refine ⟨?_, rfl, ?_, ?_, ?_⟩
  · simp only [paginate]
    rw [List.length_take]
    exact Nat.min_le_left _ _
  · exact (totalPagesOf_le_iff l.length S (totalPagesOf l.length S) (by omega)).mp
      (Nat.le_refl _)
  · intro m hm
    exact (totalPagesOf_le_iff l.length S m (by omega)).mpr hm
  · have hflat := pagesFlatten S (by omega) l.length l (Nat.le_refl _)
    simpa [paginate] using hflat

/-- Witness for `pagination_law`: the pages of a five-element list with
page size 2 concatenate back to the list. -/
theorem pagination_law_witness :
    ((List.range (paginate demoList 2 2).total_pages).map
      (fun i => (paginate demoList (i + 1) 2).items)).flatten = demoList :=
  (pagination_law demoList 2 2 (by decide) (by decide)).2.2.2.2

end NewsSpec
